import Mathlib

/-!
Verification of the rule-engine repository (semantic rule validation pipeline,
rule lifecycle operations, and the LLM-based validator result shape).

The Python source is shallowly embedded:
  * Python `str` is Lean `String`; `str.strip` / `str.split` are modelled on
    the underlying character list (`stripL`, `List.splitOn`).
  * numpy float vectors are idealised as `List ℝ` (exact real arithmetic).
  * The sentence-transformer embedding model is an external collaborator and
    is a function parameter (`emb`), either total (`String → List ℝ`) or
    fallible (`String → Except String (List ℝ)`) to model a raising provider.
  * The rule repository (`RuleManager`) is explicit state: the rule list,
    the set of rule identifiers present in the vector store, and a counter of
    repository-file writes; vector-store deletion failure is a Bool flag.
-/

/-! ## Python string primitives (src/semantic_validator.py, src/app.py) -/

/-- Python `str.strip()` on a character list: drop whitespace from both ends. -/
def stripL (l : List Char) : List Char :=
  ((l.dropWhile Char.isWhitespace).reverse.dropWhile Char.isWhitespace).reverse

/-- Python `str.strip()` on a `String`. -/
def pyStrip (s : String) : String := String.mk (stripL s.toList)

/-- Python `str.split(c)` for a single-character separator. -/
def pySplitChar (s : String) (c : Char) : List String :=
  (s.toList.splitOn c).map String.mk

/-- Helper for Python `str.split()` with no argument: cut a character list into
maximal whitespace-free words, dropping all whitespace. `acc` holds the current
word reversed. -/
def wordsAux : List Char → List Char → List (List Char)
  | [], acc => if acc = [] then [] else [acc.reverse]
  | c :: rest, acc =>
    if c.isWhitespace then
      if acc = [] then wordsAux rest [] else acc.reverse :: wordsAux rest []
    else wordsAux rest (c :: acc)

/-- Python `str.split()` (no separator): whitespace-delimited words. -/
def pyWords (s : String) : List String := (wordsAux s.toList []).map String.mk

/-- `SemanticValidator._preprocess_text`: strip, then collapse all whitespace
runs to single spaces (`' '.join(cleaned.split())`). -/
def preprocess_text (text : String) : String :=
  String.intercalate " " (pyWords (pyStrip text))

/-- The segmentation used in `find_similar_segments` (and `format_rule_context`):
`[s.strip() for s in text.split('\n') if s.strip()]` — split on line breaks,
strip each line, keep only the non-empty results, in order. -/
def segments (text : String) : List String :=
  ((pySplitChar text '\n').map pyStrip).filter (fun s => s != "")

/-- `app.format_rule_context`: the segments re-joined with line breaks. -/
def format_rule_context (context : String) : String :=
  String.intercalate "\n" (segments context)

/-! ## Rule store state (src/rule_manager.py, src/vector_db.py) -/

/-- A rule record as persisted by `RuleManager` (a Python dict with these
keys; `rule_id` and `created_at` may be absent). -/
structure StoredRule where
  title : String
  context : String
  rule_id : Option String := none
  created_at : Option String := none
  deriving DecidableEq, Repr

instance : Inhabited StoredRule := ⟨{ title := "", context := "" }⟩

/-- The mutable state touched by `RuleManager`: the in-memory rule list, the
set of rule identifiers that own embeddings in the Qdrant vector store, and
how many times the repository file has been rewritten by `save_rules`. -/
structure MState where
  rules : List StoredRule
  vecdb : List String
  file_writes : Nat
  deriving DecidableEq, Repr

/-- Python list indexing `l[i]` with an `int` index: non-negative indices from
the front, negative indices from the back, `none` for an `IndexError`. -/
def pyGet {α : Type} (l : List α) (i : ℤ) : Option α :=
  if 0 ≤ i then l.get? i.toNat
  else if 0 ≤ (l.length : ℤ) + i then l.get? ((l.length : ℤ) + i).toNat
  else none

/-- Python truthiness of an optional string (`if rule_id:`): `None` and the
empty string are falsy. -/
def pyTruthy : Option String → Bool
  | none => false
  | some s => s != ""

/-- `RuleManager.delete_rule(index)`. `vecFail` models
`vector_db.delete_rule_embeddings` failing (it logs and the exception, if any,
is swallowed by the surrounding `try`/`except`); the rule deletion and the
repository save proceed regardless. Returns the new state and the Python
return value. -/
def delete_rule (st : MState) (index : ℤ) (vecFail : Bool) : MState × Bool :=
  if 0 ≤ index ∧ index < (st.rules.length : ℤ) then
    let rule := st.rules.getD index.toNat default
    let st1 := if pyTruthy rule.rule_id = true ∧ vecFail = false
               then { st with vecdb :=
                        st.vecdb.filter (fun x => x != rule.rule_id.getD "") }
               else st
    ({ st1 with rules := st1.rules.eraseIdx index.toNat,
                file_writes := st1.file_writes + 1 }, true)
  else (st, false)

/-- `RuleManager.update_rule(index, updated_rule)` — the second definition in
the class body, which is the one Python keeps (it shadows the earlier
definition). It reads `self.rules[index]` (Python indexing, `IndexError`
caught by the surrounding `try`/`except` as a `False` return), best-effort
deletes the old embeddings, then only under `0 <= index < len(rules)`
assigns `rules[index] = updated_rule` (whole-record replacement) and saves. -/
def update_rule (st : MState) (index : ℤ) (updated_rule : StoredRule)
    (vecFail : Bool) : MState × Bool :=
  match pyGet st.rules index with
  | none => (st, false)
  | some old_rule =>
    let st1 := if pyTruthy old_rule.rule_id = true ∧ vecFail = false
               then { st with vecdb :=
                        st.vecdb.filter (fun x => x != old_rule.rule_id.getD "") }
               else st
    if 0 ≤ index ∧ index < (st1.rules.length : ℤ) then
      ({ st1 with rules := st1.rules.set index.toNat updated_rule,
                  file_writes := st1.file_writes + 1 }, true)
    else (st1, false)

/-- The first `update_rule` definition in `RuleManager`'s class body. Python
discards it (the later duplicate definition above shadows it), but it is the
variant that merges fields with `self.rules[index].update(updated_rule)` and
therefore preserves a stored `rule_id` that the replacement does not carry.
Embedded here as evidence of the intended update semantics. -/
def update_rule_shadowed (st : MState) (index : ℤ) (updated_rule : StoredRule)
    (vecFail : Bool) : MState × Bool :=
  if 0 ≤ index ∧ index < (st.rules.length : ℤ) then
    let old_rule := st.rules.getD index.toNat default
    let st1 := if pyTruthy old_rule.rule_id = true ∧ vecFail = false
               then { st with vecdb :=
                        st.vecdb.filter (fun x => x != old_rule.rule_id.getD "") }
               else st
    let merged : StoredRule :=
      { title := updated_rule.title, context := updated_rule.context,
        rule_id := updated_rule.rule_id <|> old_rule.rule_id,
        created_at := updated_rule.created_at <|> old_rule.created_at }
    ({ st1 with rules := st1.rules.set index.toNat merged,
                file_writes := st1.file_writes + 1 }, true)
  else (st, false)

/-! ## Similarity scorer (src/semantic_validator.py) -/

/-- `np.dot` of two 1-D vectors of the same length (pointwise recursion). -/
def dotR : List ℝ → List ℝ → ℝ
  | x :: xs, y :: ys => x * y + dotR xs ys
  | _, _ => 0

/-- `np.linalg.norm`: the Euclidean norm, `sqrt` of the sum of squares. -/
noncomputable def normR (l : List ℝ) : ℝ := Real.sqrt (dotR l l)

/-- `SemanticValidator.calculate_similarity`: cosine similarity with the
code's error handling. The all-zero guard comes first
(`np.all(embedding == 0)` — vacuously true for the empty vector, exactly as
in numpy); `np.dot` on vectors of different lengths raises, which the
`except` clause turns into `0.0`; otherwise the score is
`dot / (norm * norm)`. -/
noncomputable def calculate_similarity (e1 e2 : List ℝ) : ℝ :=
  if (∀ x ∈ e1, x = 0) ∨ (∀ x ∈ e2, x = 0) then 0
  else if e1.length ≠ e2.length then 0
  else dotR e1 e2 / (normR e1 * normR e2)

/-- Python `round(x, 3)` (round half to even), idealised on the reals. -/
noncomputable def roundHalfEven (x : ℝ) : ℤ :=
  let f := ⌊x⌋
  if x - f < 1/2 then f
  else if 1/2 < x - f then f + 1
  else if f % 2 = 0 then f else f + 1

/-- `round(score, 3)` as used when reporting overlap details. -/
noncomputable def pyRound3 (x : ℝ) : ℝ := (roundHalfEven (x * 1000) : ℝ) / 1000

/-! ## Semantic validation pipeline (src/semantic_validator.py) -/

/-- The `SemanticValidator` object: the external sentence-transformer model
(`emb`, applied to preprocessed text) plus the two configuration values set
in `__init__`. -/
structure SemanticValidator where
  emb : String → List ℝ
  similarity_threshold : ℝ := 0.8
  min_context_length : ℕ := 10

/-- `SemanticValidator.get_embeddings`: preprocess, return the 384-dim zero
vector for empty text, otherwise ask the model. -/
def get_embeddings (emb : String → List ℝ) (text : String) : List ℝ :=
  let cleaned := preprocess_text text
  if cleaned = "" then List.replicate 384 0 else emb cleaned

/-- `SemanticValidator.find_similar_segments`: all pairs of segments of the
two texts, each at least `min_context_length` characters long, whose
similarity reaches `similarity_threshold`, in loop encounter order. -/
noncomputable def find_similar_segments (v : SemanticValidator)
    (text1 text2 : String) : List (String × String × ℝ) :=
  (segments text1).flatMap (fun seg1 =>
    if seg1.length < v.min_context_length then []
    else (segments text2).flatMap (fun seg2 =>
      if seg2.length < v.min_context_length then []
      else if v.similarity_threshold ≤
          calculate_similarity (get_embeddings v.emb seg1) (get_embeddings v.emb seg2)
        then [(seg1, seg2,
               calculate_similarity (get_embeddings v.emb seg1) (get_embeddings v.emb seg2))]
        else []))

/-- A rule as seen by the semantic validator (`rule.get('context', '')`,
`existing_rule['title']`). -/
structure Rule where
  title : String
  context : String
  deriving DecidableEq, Repr

/-- One entry of an overlap detail list:
`{'segment1': …, 'segment2': …, 'similarity': round(score, 3)}`. -/
structure OverlapDetail where
  segment1 : String
  segment2 : String
  similarity : ℝ

/-- One entry of the invalid result's detail list:
`{'rule_title': …, 'overlaps': …}`. -/
structure RuleFeedback where
  rule_title : String
  overlaps : List OverlapDetail

/-- The validation result dict; `rule_id` is `none` when the key is absent. -/
structure SemanticValidationResult where
  is_valid : Bool
  message : String
  details : List RuleFeedback
  rule_id : Option String := none

/-- `SemanticValidator.check_semantic_overlap`: guard on empty contexts, then
report whether any similar segment pairs exist together with the rounded
detail list. -/
noncomputable def check_semantic_overlap (v : SemanticValidator)
    (rule1 rule2 : Rule) : Bool × List OverlapDetail :=
  if rule1.context = "" ∨ rule2.context = "" then (false, [])
  else
    let similar_segments := find_similar_segments v rule1.context rule2.context
    if similar_segments.isEmpty then (false, [])
    else (true, similar_segments.map (fun t =>
      { segment1 := t.1, segment2 := t.2.1, similarity := pyRound3 t.2.2 }))

/-- The loop body of `semantic_validator.validate_rule`: thread
`(overlap_found, detailed_feedback)` over one existing rule. -/
noncomputable def scan_step (v : SemanticValidator) (new_rule : Rule)
    (acc : Bool × List RuleFeedback) (existing_rule : Rule) :
    Bool × List RuleFeedback :=
  let res := check_semantic_overlap v new_rule existing_rule
  if res.1 then
    (true, acc.2 ++ [{ rule_title := existing_rule.title, overlaps := res.2 }])
  else acc

/-- `semantic_validator.validate_rule`: check the candidate against every
existing rule with a fresh default-configured `SemanticValidator` and shape
the result dict. The valid-path dict carries no `rule_id` key. -/
noncomputable def validate_rule (emb : String → List ℝ) (new_rule : Rule)
    (existing_rules : List Rule) : SemanticValidationResult :=
  let validator : SemanticValidator := { emb := emb }
  let scan := existing_rules.foldl (scan_step validator new_rule) (false, [])
  if scan.1 then
    { is_valid := false, message := "Semantic overlap detected", details := scan.2 }
  else
    { is_valid := true, message := "Rule is valid", details := [] }

/-! ## The pipeline with a fallible embedding provider

`get_embeddings` has no `try`/`except` around `self.model.encode(...)`: if the
provider raises, the exception propagates through `find_similar_segments`,
`check_semantic_overlap` and `validate_rule`. The following variants make that
explicit with `Except`: `encode` may fail, and the loops are the same loops
with the exception threaded through. -/

/-- `get_embeddings` with a fallible provider. -/
noncomputable def get_embeddingsE (encode : String → Except String (List ℝ))
    (text : String) : Except String (List ℝ) :=
  let cleaned := preprocess_text text
  if cleaned = "" then Except.ok (List.replicate 384 0) else encode cleaned

/-- `find_similar_segments` with a fallible provider: the first provider
exception aborts the loops. -/
noncomputable def find_similar_segmentsE (encode : String → Except String (List ℝ))
    (threshold : ℝ) (minLen : ℕ) (text1 text2 : String) :
    Except String (List (String × String × ℝ)) :=
  (segments text1).foldlM (fun acc seg1 =>
    if seg1.length < minLen then pure acc
    else do
      let emb1 ← get_embeddingsE encode seg1
      (segments text2).foldlM (fun acc2 seg2 =>
        if seg2.length < minLen then pure acc2
        else do
          let emb2 ← get_embeddingsE encode seg2
          let similarity := calculate_similarity emb1 emb2
          if threshold ≤ similarity then pure (acc2 ++ [(seg1, seg2, similarity)])
          else pure acc2) acc) []

/-- `check_semantic_overlap` with a fallible provider. -/
noncomputable def check_semantic_overlapE (encode : String → Except String (List ℝ))
    (rule1 rule2 : Rule) : Except String (Bool × List OverlapDetail) :=
  if rule1.context = "" ∨ rule2.context = "" then pure (false, [])
  else do
    let similar_segments ← find_similar_segmentsE encode 0.8 10 rule1.context rule2.context
    if similar_segments.isEmpty then pure (false, [])
    else pure (true, similar_segments.map (fun t =>
      { segment1 := t.1, segment2 := t.2.1, similarity := pyRound3 t.2.2 }))

/-- `validate_rule` with a fallible provider: a provider exception raised for
any processed segment propagates out of the whole validation. -/
noncomputable def validate_ruleE (encode : String → Except String (List ℝ))
    (new_rule : Rule) (existing_rules : List Rule) :
    Except String SemanticValidationResult := do
  let scan ← existing_rules.foldlM (fun (acc : Bool × List RuleFeedback) er => do
      let res ← check_semantic_overlapE encode new_rule er
      if res.1 then
        pure (true, acc.2 ++ [{ rule_title := er.title, overlaps := res.2 }])
      else pure acc) ((false : Bool), ([] : List RuleFeedback))
  if scan.1 then
    pure { is_valid := false, message := "Semantic overlap detected", details := scan.2 }
  else
    pure { is_valid := true, message := "Rule is valid", details := [] }

/-! ## LLM-based validator (src/llm_rule_validator.py) -/

/-- The dict returned by `LLMSemanticValidator.analyze_rule` (the outcome of
the external text-generation call, parsed). -/
structure Analysis where
  has_issues : Bool
  can_coexist : Bool
  direct_contradictions : List String
  ambiguous_statements : List String
  redundant_rules : List String
  grouping_of_similar_entities : String
  structured_analysis_summary : String
  deriving DecidableEq, Repr

/-- The result dict of `llm_rule_validator.validate_rule`; `rule_id` is `none`
when the key is absent. -/
structure LLMValidationResult where
  is_valid : Bool
  message : String
  details : Analysis
  rule_id : Option String := none
  deriving DecidableEq, Repr

/-- `llm_rule_validator.validate_rule`, parametrised by the analysis outcome
(the LLM call is external) and by the fresh identifier that
`str(uuid.uuid4())` produces on the valid path. -/
def llm_validate_rule (analysis : Analysis) (fresh_id : String) : LLMValidationResult :=
  if analysis.has_issues then
    { is_valid := false, message := "Issues detected in rule validation",
      details := analysis }
  else
    { is_valid := true, message := "Rule is valid", details := analysis,
      rule_id := some fresh_id }

/-! ## Helper lemmas: strings and segmentation -/

lemma dropWhile_head_false {α : Type} (p : α → Bool) (l : List α) (a : α)
    (t : List α) (h : l.dropWhile p = a :: t) : p a = false := by
  induction l with
  | nil => simp at h
  | cons x xs ih =>
    rw [List.dropWhile_cons] at h
    split at h
    next hpx => exact ih h
    next hpx =>
      cases h
      simpa using hpx

lemma stripL_ne_nil_has_nonspace (l : List Char) (h : stripL l ≠ []) :
    ∃ c ∈ stripL l, c.isWhitespace = false := by
  unfold stripL at *
  set m := (l.dropWhile Char.isWhitespace).reverse with hm
  cases hr : m.dropWhile Char.isWhitespace with
  | nil => rw [hr] at h; simp at h
  | cons a t =>
    refine ⟨a, ?_, dropWhile_head_false _ _ _ _ hr⟩
    simp

lemma segments_empty : segments "" = [] := by decide

lemma mem_segments_ne_empty {c s : String} (h : s ∈ segments c) : s ≠ "" := by
  unfold segments at h
  have := List.of_mem_filter h
  simpa using this

lemma mem_segments_strip {c s : String} (h : s ∈ segments c) :
    ∃ l : List Char, s = String.mk (stripL l) := by
  unfold segments at h
  have hmem := List.mem_of_mem_filter h
  simp only [List.mem_map] at hmem
  obtain ⟨x, hx, rfl⟩ := hmem
  exact ⟨x.toList, rfl⟩

lemma mem_segments_not_whitespace_only {c s : String} (h : s ∈ segments c) :
    ¬ (∀ ch ∈ s.toList, ch.isWhitespace = true) := by
  obtain ⟨l, rfl⟩ := mem_segments_strip h
  have hne : String.mk (stripL l) ≠ "" := mem_segments_ne_empty h
  have hnil : stripL l ≠ [] := by
    intro hl
    exact hne (by simp [hl])
  obtain ⟨ch, hch, hws⟩ := stripL_ne_nil_has_nonspace l hnil
  intro hall
  have htrue : ch.isWhitespace = true := hall ch (by simpa using hch)
  rw [htrue] at hws
  exact absurd hws (by decide)

/-! ## Helper lemmas: find_similar_segments -/

lemma mem_find_similar_segments {v : SemanticValidator} {t1 t2 : String}
    {m : String × String × ℝ} :
    m ∈ find_similar_segments v t1 t2 ↔
      ∃ s1 ∈ segments t1, ∃ s2 ∈ segments t2,
        v.min_context_length ≤ s1.length ∧ v.min_context_length ≤ s2.length ∧
        v.similarity_threshold ≤
          calculate_similarity (get_embeddings v.emb s1) (get_embeddings v.emb s2) ∧
        m = (s1, s2,
          calculate_similarity (get_embeddings v.emb s1) (get_embeddings v.emb s2)) := by
  unfold find_similar_segments
  simp only [List.mem_flatMap]
  constructor
  · rintro ⟨s1, hs1, hm⟩
    by_cases h1 : s1.length < v.min_context_length
    · rw [if_pos h1] at hm; simp at hm
    · rw [if_neg h1] at hm
      simp only [List.mem_flatMap] at hm
      obtain ⟨s2, hs2, hm⟩ := hm
      by_cases h2 : s2.length < v.min_context_length
      · rw [if_pos h2] at hm; simp at hm
      · rw [if_neg h2] at hm
        by_cases h3 : v.similarity_threshold ≤
            calculate_similarity (get_embeddings v.emb s1) (get_embeddings v.emb s2)
        · rw [if_pos h3] at hm
          simp only [List.mem_singleton] at hm
          exact ⟨s1, hs1, s2, hs2, Nat.le_of_not_lt h1, Nat.le_of_not_lt h2, h3, hm⟩
        · rw [if_neg h3] at hm; simp at hm
  · rintro ⟨s1, hs1, s2, hs2, hl1, hl2, hth, rfl⟩
    refine ⟨s1, hs1, ?_⟩
    rw [if_neg (Nat.not_lt.mpr hl1)]
    simp only [List.mem_flatMap]
    refine ⟨s2, hs2, ?_⟩
    rw [if_neg (Nat.not_lt.mpr hl2), if_pos hth]
    simp

lemma find_similar_segments_empty_left {v : SemanticValidator} {t2 : String} :
    find_similar_segments v "" t2 = [] := by
  unfold find_similar_segments
  rw [segments_empty]
  rfl

lemma find_similar_segments_empty_right {v : SemanticValidator} {t1 : String} :
    find_similar_segments v t1 "" = [] := by
  unfold find_similar_segments
  rw [segments_empty]
  induction segments t1 with
  | nil => rfl
  | cons a l ih =>
    rw [List.flatMap_cons, ih]
    split <;> simp

lemma flatMap_sublist {α β : Type} (l : List α) (f g : α → List β)
    (h : ∀ a ∈ l, (f a).Sublist (g a)) : (l.flatMap f).Sublist (l.flatMap g) := by
  induction l with
  | nil => simp
  | cons a t ih =>
    rw [List.flatMap_cons, List.flatMap_cons]
    exact List.Sublist.append (h a (List.mem_cons_self a t))
      (ih (fun x hx => h x (List.mem_cons_of_mem a hx)))

/-! ## Helper lemmas: check_semantic_overlap and validate_rule -/

lemma check_semantic_overlap_fst (v : SemanticValidator) (r1 r2 : Rule) :
    (check_semantic_overlap v r1 r2).1 =
      !(find_similar_segments v r1.context r2.context).isEmpty := by
  unfold check_semantic_overlap
  by_cases hg : r1.context = "" ∨ r2.context = ""
  · rw [if_pos hg]
    rcases hg with hg | hg
    · rw [hg, find_similar_segments_empty_left]; rfl
    · rw [hg, find_similar_segments_empty_right]; rfl
  · rw [if_neg hg]
    by_cases he : (find_similar_segments v r1.context r2.context).isEmpty
    · simp [he]
    · simp [he]

lemma check_semantic_overlap_snd_of_fst (v : SemanticValidator) (r1 r2 : Rule)
    (h : (check_semantic_overlap v r1 r2).1 = true) :
    (check_semantic_overlap v r1 r2).2 =
      (find_similar_segments v r1.context r2.context).map (fun t =>
        { segment1 := t.1, segment2 := t.2.1, similarity := pyRound3 t.2.2 }) := by
  unfold check_semantic_overlap at *
  by_cases hg : r1.context = "" ∨ r2.context = ""
  · rw [if_pos hg] at h; simp at h
  · rw [if_neg hg] at h ⊢
    by_cases he : (find_similar_segments v r1.context r2.context).isEmpty
    · rw [if_pos he] at h; simp at h
    · rw [if_neg he]

lemma check_semantic_overlap_fst_iff (v : SemanticValidator) (r1 r2 : Rule) :
    (check_semantic_overlap v r1 r2).1 = true ↔
      ∃ s1 ∈ segments r1.context, ∃ s2 ∈ segments r2.context,
        v.min_context_length ≤ s1.length ∧ v.min_context_length ≤ s2.length ∧
        v.similarity_threshold ≤
          calculate_similarity (get_embeddings v.emb s1) (get_embeddings v.emb s2) := by
  rw [check_semantic_overlap_fst]
  constructor
  · intro h
    have hne : find_similar_segments v r1.context r2.context ≠ [] := by
      intro hnil
      rw [hnil] at h
      simp at h
    obtain ⟨m, hm⟩ := List.exists_mem_of_ne_nil _ hne
    obtain ⟨s1, hs1, s2, hs2, h1, h2, h3, _⟩ := mem_find_similar_segments.mp hm
    exact ⟨s1, hs1, s2, hs2, h1, h2, h3⟩
  · rintro ⟨s1, hs1, s2, hs2, h1, h2, h3⟩
    have hm : (s1, s2,
        calculate_similarity (get_embeddings v.emb s1) (get_embeddings v.emb s2)) ∈
        find_similar_segments v r1.context r2.context :=
      mem_find_similar_segments.mpr ⟨s1, hs1, s2, hs2, h1, h2, h3, rfl⟩
    have hne := List.ne_nil_of_mem hm
    cases hfind : (find_similar_segments v r1.context r2.context).isEmpty with
    | false => simp
    | true => exact absurd (List.isEmpty_iff.mp hfind) hne

lemma scan_foldl (v : SemanticValidator) (cand : Rule) :
    ∀ (l : List Rule) (b : Bool) (fb : List RuleFeedback),
      l.foldl (scan_step v cand) (b, fb) =
        (b || l.any (fun er => (check_semantic_overlap v cand er).1),
         fb ++ (l.filter (fun er => (check_semantic_overlap v cand er).1)).map
            (fun er => { rule_title := er.title,
                         overlaps := (check_semantic_overlap v cand er).2 })) := by
  intro l
  induction l with
  | nil => intro b fb; simp
  | cons er rest ih =>
    intro b fb
    rw [List.foldl_cons]
    by_cases h : (check_semantic_overlap v cand er).1 = true
    · have hstep : scan_step v cand (b, fb) er =
          (true, fb ++ [{ rule_title := er.title,
                          overlaps := (check_semantic_overlap v cand er).2 }]) := by
        unfold scan_step
        rw [if_pos h]
      rw [hstep, ih]
      simp [List.filter_cons, h]
    · have hb : (check_semantic_overlap v cand er).1 = false := by simpa using h
      have hstep : scan_step v cand (b, fb) er = (b, fb) := by
        unfold scan_step
        rw [if_neg h]
      rw [hstep, ih]
      simp [List.filter_cons, hb]

/-- The default-configured validator that `validate_rule` constructs. -/
def defaultValidator (emb : String → List ℝ) : SemanticValidator := { emb := emb }

lemma validate_rule_eq (emb : String → List ℝ) (new_rule : Rule)
    (existing_rules : List Rule) :
    validate_rule emb new_rule existing_rules =
      if existing_rules.any
          (fun er => (check_semantic_overlap (defaultValidator emb) new_rule er).1) then
        { is_valid := false, message := "Semantic overlap detected",
          details := (existing_rules.filter
              (fun er => (check_semantic_overlap (defaultValidator emb) new_rule er).1)).map
            (fun er => { rule_title := er.title,
                         overlaps := (check_semantic_overlap (defaultValidator emb) new_rule er).2 }) }
      else
        { is_valid := true, message := "Rule is valid", details := [] } := by
  simp only [validate_rule]
  rw [scan_foldl]
  simp [defaultValidator]

/-! ## Helper lemmas: the similarity scorer -/

lemma dotR_nil_left (b : List ℝ) : dotR [] b = 0 := by cases b <;> rfl

lemma dotR_cons (x y : ℝ) (xs ys : List ℝ) :
    dotR (x :: xs) (y :: ys) = x * y + dotR xs ys := rfl

lemma dotR_self_nonneg (l : List ℝ) : 0 ≤ dotR l l := by
  induction l with
  | nil => simp [dotR_nil_left]
  | cons x xs ih =>
    rw [dotR_cons]
    nlinarith [mul_self_nonneg x]

lemma dotR_self_pos (l : List ℝ) (h : ∃ x ∈ l, x ≠ 0) : 0 < dotR l l := by
  induction l with
  | nil => simp at h
  | cons x xs ih =>
    rw [dotR_cons]
    rcases h with ⟨y, hy, hy0⟩
    rcases List.mem_cons.mp hy with rfl | hmem
    · nlinarith [dotR_self_nonneg xs, mul_self_pos.mpr hy0]
    · nlinarith [ih ⟨y, hmem, hy0⟩, mul_self_nonneg x]

lemma cauchy_schwarz_dotR (a : List ℝ) : ∀ b : List ℝ,
    (dotR a b) ^ 2 ≤ dotR a a * dotR b b := by
  induction a with
  | nil =>
    intro b
    simp [dotR_nil_left]
  | cons x xs ih =>
    intro b
    cases b with
    | nil =>
      have h1 : dotR (x :: xs) [] = 0 := rfl
      have h2 : dotR ([] : List ℝ) [] = 0 := rfl
      rw [h1, h2]
      simp
    | cons y ys =>
      rw [dotR_cons, dotR_cons, dotR_cons]
      have hd := ih ys
      have hA := dotR_self_nonneg xs
      have hB := dotR_self_nonneg ys
      set d := dotR xs ys with hdd
      set A := dotR xs xs with hAA
      set B := dotR ys ys with hBB
      rcases eq_or_lt_of_le hB with hB0 | hBpos
      · have hd0 : d = 0 := by
          have : d ^ 2 ≤ 0 := by nlinarith
          nlinarith [sq_nonneg d]
        rw [hd0, ← hB0]
        nlinarith [sq_nonneg (x * y), mul_nonneg hA (mul_self_nonneg y)]
      · have key : B * ((x * x + A) * (y * y + B) - (x * y + d) ^ 2) =
            (x * B - y * d) ^ 2 + (y * y + B) * (A * B - d ^ 2) := by ring
        have hrhs : 0 ≤ (x * B - y * d) ^ 2 + (y * y + B) * (A * B - d ^ 2) := by
          have h1 : 0 ≤ (y * y + B) := by nlinarith [mul_self_nonneg y]
          have h2 : 0 ≤ A * B - d ^ 2 := by linarith
          nlinarith [sq_nonneg (x * B - y * d)]
        have hBE : 0 ≤ B * ((x * x + A) * (y * y + B) - (x * y + d) ^ 2) := by
          rw [key]; exact hrhs
        nlinarith [hBE, hBpos]

lemma abs_dotR_le (a b : List ℝ) : |dotR a b| ≤ normR a * normR b := by
  have h := cauchy_schwarz_dotR a b
  rw [← Real.sqrt_sq_eq_abs]
  calc Real.sqrt ((dotR a b) ^ 2) ≤ Real.sqrt (dotR a a * dotR b b) :=
        Real.sqrt_le_sqrt h
    _ = normR a * normR b := by
        rw [Real.sqrt_mul (dotR_self_nonneg a)]
        rfl

lemma normR_pos (l : List ℝ) (h : ∃ x ∈ l, x ≠ 0) : 0 < normR l :=
  Real.sqrt_pos.mpr (dotR_self_pos l h)

lemma calculate_similarity_bounds (e1 e2 : List ℝ) :
    -1 ≤ calculate_similarity e1 e2 ∧ calculate_similarity e1 e2 ≤ 1 := by
  unfold calculate_similarity
  by_cases hz : (∀ x ∈ e1, x = 0) ∨ (∀ x ∈ e2, x = 0)
  · rw [if_pos hz]; norm_num
  · rw [if_neg hz]
    by_cases hl : e1.length ≠ e2.length
    · rw [if_pos hl]; norm_num
    · rw [if_neg hl]
      push_neg at hz
      obtain ⟨hz1, hz2⟩ := hz
      have hp1 : 0 < normR e1 := normR_pos e1 hz1
      have hp2 : 0 < normR e2 := normR_pos e2 hz2
      have hpos : 0 < normR e1 * normR e2 := mul_pos hp1 hp2
      have habs : |dotR e1 e2 / (normR e1 * normR e2)| ≤ 1 := by
        rw [abs_div, abs_of_pos hpos]
        rw [div_le_one hpos]
        exact abs_dotR_le e1 e2
      exact abs_le.mp habs

lemma calculate_similarity_self (v : List ℝ) (h : ¬ ∀ x ∈ v, x = 0) :
    calculate_similarity v v = 1 := by
  unfold calculate_similarity
  rw [if_neg (by tauto), if_neg (by simp)]
  have hpos : 0 < dotR v v := by
    push_neg at h
    exact dotR_self_pos v h
  have hnorm : normR v * normR v = dotR v v :=
    Real.mul_self_sqrt (dotR_self_nonneg v)
  rw [hnorm]
  exact div_self (ne_of_gt hpos)

lemma calculate_similarity_zero (e1 e2 : List ℝ)
    (h : (∀ x ∈ e1, x = 0) ∨ (∀ x ∈ e2, x = 0)) :
    calculate_similarity e1 e2 = 0 := by
  unfold calculate_similarity
  rw [if_pos h]

/-! ## Claim theorems -/

/-- C2 counterexample: the embedding-based `validate_rule` in
`semantic_validator.py` returns a valid result (`is_valid = true`) that
carries no `rule_id`, so a fresh identifier is not present exactly when the
result is valid. -/
theorem C2_counterexample :
    (validate_rule (fun _ => []) { title := "t", context := "c" } []).is_valid = true ∧
    (validate_rule (fun _ => []) { title := "t", context := "c" } []).rule_id = none := by
  constructor <;> (rw [validate_rule_eq]; simp)

/-- C2 (amended): the LLM-based `validate_rule` carries a freshly generated
`rule_id` exactly when `is_valid` is true; the embedding-based
`validate_rule` never includes a `rule_id`, not even on the valid path. -/
theorem C2_rule_id_presence :
    (∀ (analysis : Analysis) (fresh_id : String),
      (llm_validate_rule analysis fresh_id).rule_id =
        (if (llm_validate_rule analysis fresh_id).is_valid then some fresh_id else none))
    ∧ (∀ (emb : String → List ℝ) (new_rule : Rule) (existing_rules : List Rule),
      (validate_rule emb new_rule existing_rules).rule_id = none) := by
  constructor
  · intro a f
    unfold llm_validate_rule
    by_cases h : a.has_issues = true <;> simp [h]
  · intro emb nr ex
    rw [validate_rule_eq]
    split <;> rfl

/-- C3 evaluation at the failing input: starting from one stored rule that
holds `rule_id = "r1"` and owns embeddings, the live `update_rule`
(the second, shadowing definition) at index 0 with the app's
`{title, context}` record deletes the old embeddings and replaces the whole
record, so the stored `rule_id` afterwards is `none` — the identifier is not
preserved. The shadowed first definition would have preserved `"r1"`. -/
theorem C3_update_rule_drops_rule_id :
    update_rule
        { rules := [{ title := "t", context := "c", rule_id := some "r1" }],
          vecdb := ["r1"], file_writes := 0 }
        0 { title := "t2", context := "c2" } false
      = ({ rules := [{ title := "t2", context := "c2" }],
           vecdb := [], file_writes := 1 }, true) ∧
    update_rule_shadowed
        { rules := [{ title := "t", context := "c", rule_id := some "r1" }],
          vecdb := ["r1"], file_writes := 0 }
        0 { title := "t2", context := "c2" } false
      = ({ rules := [{ title := "t2", context := "c2", rule_id := some "r1" }],
           vecdb := [], file_writes := 1 }, true) := by
  decide

/-- C4: for every in-range index, `delete_rule` returns `True`, removes the
rule at that position and rewrites the repository file, also (in particular)
when the vector-store deletion of the rule's embeddings fails — the failure
is swallowed and never blocks or rolls back the rule deletion. -/
theorem C4_delete_rule_best_effort (st : MState) (i : ℤ) (vecFail : Bool)
    (h0 : 0 ≤ i) (h1 : i < (st.rules.length : ℤ)) :
    (delete_rule st i vecFail).2 = true ∧
    (delete_rule st i vecFail).1.rules = st.rules.eraseIdx i.toNat ∧
    (delete_rule st i vecFail).1.file_writes = st.file_writes + 1 := by
  simp only [delete_rule]
  rw [if_pos ⟨h0, h1⟩]
  by_cases hc : pyTruthy (st.rules.getD i.toNat default).rule_id = true ∧ vecFail = false
  · rw [if_pos hc]
    exact ⟨rfl, rfl, rfl⟩
  · rw [if_neg hc]
    exact ⟨rfl, rfl, rfl⟩

/-- C4 witness: deleting index 0 from a two-rule store while the vector-store
deletion fails still removes the rule and returns `True`. -/
theorem C4_witness :
    (delete_rule
        { rules := [{ title := "a", context := "b", rule_id := some "r1" },
                    { title := "c", context := "d", rule_id := some "r2" }],
          vecdb := ["r1", "r2"], file_writes := 0 } 0 true).2 = true ∧
    (delete_rule
        { rules := [{ title := "a", context := "b", rule_id := some "r1" },
                    { title := "c", context := "d", rule_id := some "r2" }],
          vecdb := ["r1", "r2"], file_writes := 0 } 0 true).1.rules =
      ([{ title := "a", context := "b", rule_id := some "r1" },
        { title := "c", context := "d", rule_id := some "r2" }] :
          List StoredRule).eraseIdx (0 : ℤ).toNat ∧
    (delete_rule
        { rules := [{ title := "a", context := "b", rule_id := some "r1" },
                    { title := "c", context := "d", rule_id := some "r2" }],
          vecdb := ["r1", "r2"], file_writes := 0 } 0 true).1.file_writes = 0 + 1 :=
  C4_delete_rule_best_effort _ 0 true (by decide) (by decide)

/-- C10: for every index outside `[0, len(rules))` — negative or too large —
`delete_rule` returns `False` leaving the whole state unchanged, and
`update_rule` returns `False` leaving the rule list and the repository file
untouched (no save happens). -/
theorem C10_out_of_range_noop (st : MState) (i : ℤ) (r : StoredRule)
    (vecFail : Bool) (h : i < 0 ∨ (st.rules.length : ℤ) ≤ i) :
    delete_rule st i vecFail = (st, false) ∧
    (update_rule st i r vecFail).2 = false ∧
    (update_rule st i r vecFail).1.rules = st.rules ∧
    (update_rule st i r vecFail).1.file_writes = st.file_writes := by
  have hcond : ¬ (0 ≤ i ∧ i < (st.rules.length : ℤ)) := by omega
  refine ⟨?_, ?_⟩
  · simp only [delete_rule]
    rw [if_neg hcond]
  · simp only [update_rule]
    cases hg : pyGet st.rules i with
    | none => exact ⟨rfl, rfl, rfl⟩
    | some old =>
      dsimp only
      by_cases hc : pyTruthy old.rule_id = true ∧ vecFail = false
      · rw [if_pos hc]
        dsimp only
        rw [if_neg hcond]
        exact ⟨rfl, rfl, rfl⟩
      · rw [if_neg hc]
        rw [if_neg hcond]
        exact ⟨rfl, rfl, rfl⟩

/-- C10 witness: with one stored rule, index -1 (valid to Python's indexing
but rejected by both guards) leaves the store and the file untouched. -/
theorem C10_witness :
    delete_rule
        { rules := [{ title := "a", context := "b", rule_id := some "r1" }],
          vecdb := ["r1"], file_writes := 0 } (-1) false =
      ({ rules := [{ title := "a", context := "b", rule_id := some "r1" }],
         vecdb := ["r1"], file_writes := 0 }, false) ∧
    (update_rule
        { rules := [{ title := "a", context := "b", rule_id := some "r1" }],
          vecdb := ["r1"], file_writes := 0 } (-1)
        { title := "x", context := "y" } false).2 = false ∧
    (update_rule
        { rules := [{ title := "a", context := "b", rule_id := some "r1" }],
          vecdb := ["r1"], file_writes := 0 } (-1)
        { title := "x", context := "y" } false).1.rules =
      [{ title := "a", context := "b", rule_id := some "r1" }] ∧
    (update_rule
        { rules := [{ title := "a", context := "b", rule_id := some "r1" }],
          vecdb := ["r1"], file_writes := 0 } (-1)
        { title := "x", context := "y" } false).1.file_writes = 0 :=
  C10_out_of_range_noop _ (-1) _ false (by decide)

/-- C6: `calculate_similarity` is total and always lands in `[-1, 1]`
(Cauchy-Schwarz; the caught-exception and all-zero branches return 0);
self-similarity of a non-zero vector is exactly 1; and whenever either
argument is an all-zero vector the score is 0 instead of a division error. -/
theorem C6_calculate_similarity_properties (e1 e2 : List ℝ) :
    (-1 ≤ calculate_similarity e1 e2 ∧ calculate_similarity e1 e2 ≤ 1)
    ∧ ((¬ ∀ x ∈ e1, x = 0) → calculate_similarity e1 e1 = 1)
    ∧ (((∀ x ∈ e1, x = 0) ∨ (∀ x ∈ e2, x = 0)) → calculate_similarity e1 e2 = 0) :=
  ⟨calculate_similarity_bounds e1 e2,
   fun h => calculate_similarity_self e1 h,
   fun h => calculate_similarity_zero e1 e2 h⟩

/-- C6 witness: concrete evaluations — the bounds at `[1,0]`, `[0,1]`,
self-similarity 1 at the non-zero `[1,0]`, and score 0 against the zero
vector `[0,0]`. -/
theorem C6_witness :
    (-1 ≤ calculate_similarity [1, 0] [0, 1] ∧ calculate_similarity [1, 0] [0, 1] ≤ 1)
    ∧ calculate_similarity [1, 0] [1, 0] = 1
    ∧ calculate_similarity [0, 0] [0, 1] = 0 :=
  ⟨(C6_calculate_similarity_properties [1, 0] [0, 1]).1,
   (C6_calculate_similarity_properties [1, 0] [0, 1]).2.1 (by norm_num),
   (C6_calculate_similarity_properties [0, 0] [0, 1]).2.2 (Or.inl (by norm_num))⟩

/-- C1: the embedding-based `validate_rule` reports
`is_valid = false` with message "Semantic overlap detected" and the detail
list of all matching pairs — candidate segment, matched prior segment and
score rounded to 3 decimals, grouped under the matched rule's title — if and
only if some qualifying candidate segment (trimmed, non-blank, at least 10
characters) scores at least the 0.8 threshold against some qualifying
segment of some existing rule; otherwise the result is valid with an empty
detail list. -/
theorem C1_validate_rule_iff (emb : String → List ℝ) (new_rule : Rule)
    (existing_rules : List Rule) :
    (((validate_rule emb new_rule existing_rules).is_valid = false ∧
      (validate_rule emb new_rule existing_rules).message = "Semantic overlap detected" ∧
      (validate_rule emb new_rule existing_rules).details =
        (existing_rules.filter (fun er =>
            !(find_similar_segments (defaultValidator emb) new_rule.context er.context).isEmpty)).map
          (fun er => { rule_title := er.title,
                       overlaps := (find_similar_segments (defaultValidator emb)
                           new_rule.context er.context).map
                         (fun t => { segment1 := t.1, segment2 := t.2.1,
                                     similarity := pyRound3 t.2.2 }) })) ↔
      (∃ er ∈ existing_rules, ∃ s1 ∈ segments new_rule.context,
        ∃ s2 ∈ segments er.context, 10 ≤ s1.length ∧ 10 ≤ s2.length ∧
        (0.8 : ℝ) ≤ calculate_similarity (get_embeddings emb s1) (get_embeddings emb s2)))
    ∧ ((¬ ∃ er ∈ existing_rules, ∃ s1 ∈ segments new_rule.context,
        ∃ s2 ∈ segments er.context, 10 ≤ s1.length ∧ 10 ≤ s2.length ∧
        (0.8 : ℝ) ≤ calculate_similarity (get_embeddings emb s1) (get_embeddings emb s2)) →
      (validate_rule emb new_rule existing_rules).is_valid = true ∧
      (validate_rule emb new_rule existing_rules).message = "Rule is valid" ∧
      (validate_rule emb new_rule existing_rules).details = []) := by
  have hpred : ∀ er : Rule, (check_semantic_overlap (defaultValidator emb) new_rule er).1 =
      !(find_similar_segments (defaultValidator emb) new_rule.context er.context).isEmpty :=
    fun er => check_semantic_overlap_fst _ _ _
  have hBiff : (existing_rules.any (fun er =>
      (check_semantic_overlap (defaultValidator emb) new_rule er).1)) = true ↔
      (∃ er ∈ existing_rules, ∃ s1 ∈ segments new_rule.context,
        ∃ s2 ∈ segments er.context, 10 ≤ s1.length ∧ 10 ≤ s2.length ∧
        (0.8 : ℝ) ≤ calculate_similarity (get_embeddings emb s1) (get_embeddings emb s2)) := by
    rw [List.any_eq_true]
    constructor
    · rintro ⟨er, her, hch⟩
      obtain ⟨s1, hs1, s2, hs2, h1, h2, h3⟩ :=
        (check_semantic_overlap_fst_iff (defaultValidator emb) new_rule er).mp hch
      exact ⟨er, her, s1, hs1, s2, hs2, h1, h2, h3⟩
    · rintro ⟨er, her, s1, hs1, s2, hs2, h1, h2, h3⟩
      exact ⟨er, her,
        (check_semantic_overlap_fst_iff (defaultValidator emb) new_rule er).mpr
          ⟨s1, hs1, s2, hs2, h1, h2, h3⟩⟩
  rw [validate_rule_eq]
  by_cases hany : (existing_rules.any (fun er =>
      (check_semantic_overlap (defaultValidator emb) new_rule er).1)) = true
  · rw [if_pos hany]
    have hdet : (existing_rules.filter (fun er =>
          (check_semantic_overlap (defaultValidator emb) new_rule er).1)).map
        (fun er => ({ rule_title := er.title,
                      overlaps := (check_semantic_overlap (defaultValidator emb) new_rule er).2 } :
                    RuleFeedback)) =
        (existing_rules.filter (fun er =>
            !(find_similar_segments (defaultValidator emb) new_rule.context er.context).isEmpty)).map
          (fun er => { rule_title := er.title,
                       overlaps := (find_similar_segments (defaultValidator emb)
                           new_rule.context er.context).map
                         (fun t => { segment1 := t.1, segment2 := t.2.1,
                                     similarity := pyRound3 t.2.2 }) }) := by
      have hfil : existing_rules.filter (fun er =>
            (check_semantic_overlap (defaultValidator emb) new_rule er).1) =
          existing_rules.filter (fun er =>
            !(find_similar_segments (defaultValidator emb) new_rule.context er.context).isEmpty) :=
        List.filter_congr (fun a _ => hpred a)
      rw [hfil]
      apply List.map_congr_left
      intro er her
      have hmm := (List.mem_filter.mp her).2
      have hch : (check_semantic_overlap (defaultValidator emb) new_rule er).1 = true := by
        rw [hpred er]; exact hmm
      rw [check_semantic_overlap_snd_of_fst _ _ _ hch]
    constructor
    · constructor
      · intro _; exact hBiff.mp hany
      · intro _; exact ⟨rfl, rfl, hdet⟩
    · intro hnB
      exact absurd (hBiff.mp hany) hnB
  · rw [if_neg hany]
    constructor
    · constructor
      · intro hΦ
        exact absurd hΦ.1 (by simp)
      · intro hB
        exact absurd (hBiff.mpr hB) hany
    · intro _
      exact ⟨rfl, rfl, rfl⟩

/-- C1 witness: with no existing rules there is no qualifying overlapping
pair, and validation of a candidate is valid with an empty detail list. -/
theorem C1_witness :
    (validate_rule (fun _ => []) { title := "t", context := "c" } []).is_valid = true ∧
    (validate_rule (fun _ => []) { title := "t", context := "c" } []).message = "Rule is valid" ∧
    (validate_rule (fun _ => []) { title := "t", context := "c" } []).details = [] :=
  (C1_validate_rule_iff (fun _ => []) { title := "t", context := "c" } []).2 (by simp)

/-- C8: if either rule's context is the empty string, the overlap check
reports no overlap with an empty detail list, and a candidate with empty
context validates as trivially valid with an empty detail list against any
existing rules. -/
theorem C8_empty_context_guard :
    (∀ (v : SemanticValidator) (r1 r2 : Rule), r1.context = "" ∨ r2.context = "" →
      check_semantic_overlap v r1 r2 = (false, []))
    ∧ (∀ (emb : String → List ℝ) (cand : Rule) (existing_rules : List Rule),
      cand.context = "" →
      (validate_rule emb cand existing_rules).is_valid = true ∧
      (validate_rule emb cand existing_rules).message = "Rule is valid" ∧
      (validate_rule emb cand existing_rules).details = []) := by
  constructor
  · intro v r1 r2 h
    unfold check_semantic_overlap
    rw [if_pos h]
  · intro emb cand existing_rules h
    rw [validate_rule_eq]
    have hall : ∀ er ∈ existing_rules,
        ¬ ((check_semantic_overlap (defaultValidator emb) cand er).1 = true) := by
      intro er _
      rw [check_semantic_overlap_fst, h, find_similar_segments_empty_left]
      simp
    have hany : ¬ ((existing_rules.any (fun er =>
        (check_semantic_overlap (defaultValidator emb) cand er).1)) = true) := by
      rw [List.any_eq_true]
      rintro ⟨er, her, hch⟩
      exact hall er her hch
    rw [if_neg hany]
    exact ⟨rfl, rfl, rfl⟩

/-- C8 witness: at a concrete candidate with empty context, the overlap
check against a non-empty rule reports no overlap and validation is valid. -/
theorem C8_witness :
    check_semantic_overlap { emb := fun _ => [] } { title := "t", context := "" }
        { title := "u", context := "x" } = (false, []) ∧
    ((validate_rule (fun _ => []) { title := "t", context := "" }
        [{ title := "u", context := "x" }]).is_valid = true ∧
     (validate_rule (fun _ => []) { title := "t", context := "" }
        [{ title := "u", context := "x" }]).message = "Rule is valid" ∧
     (validate_rule (fun _ => []) { title := "t", context := "" }
        [{ title := "u", context := "x" }]).details = []) :=
  ⟨C8_empty_context_guard.1 _ _ _ (Or.inl rfl),
   C8_empty_context_guard.2 (fun _ => []) _ _ rfl⟩

/-- C9: for a fixed embedding function, texts and minimum segment length,
raising the similarity threshold only shrinks the reported match list: the
matches at the higher threshold form a sublist of (hence are never more
numerous than) those at the lower threshold. -/
theorem C9_threshold_monotone (emb : String → List ℝ) (t1 t2 : ℝ) (m : ℕ)
    (text1 text2 : String) (h : t1 ≤ t2) :
    (find_similar_segments
        { emb := emb, similarity_threshold := t2, min_context_length := m }
        text1 text2).Sublist
      (find_similar_segments
        { emb := emb, similarity_threshold := t1, min_context_length := m }
        text1 text2) ∧
    (find_similar_segments
        { emb := emb, similarity_threshold := t2, min_context_length := m }
        text1 text2).length ≤
      (find_similar_segments
        { emb := emb, similarity_threshold := t1, min_context_length := m }
        text1 text2).length := by
  have hsub : (find_similar_segments
      { emb := emb, similarity_threshold := t2, min_context_length := m }
      text1 text2).Sublist
      (find_similar_segments
        { emb := emb, similarity_threshold := t1, min_context_length := m }
        text1 text2) := by
    unfold find_similar_segments
    dsimp only
    apply flatMap_sublist
    intro s1 _
    by_cases h1 : s1.length < m
    · rw [if_pos h1, if_pos h1]
    · rw [if_neg h1, if_neg h1]
      apply flatMap_sublist
      intro s2 _
      by_cases h2 : s2.length < m
      · rw [if_pos h2, if_pos h2]
      · rw [if_neg h2, if_neg h2]
        by_cases h3 : t2 ≤ calculate_similarity (get_embeddings emb s1) (get_embeddings emb s2)
        · rw [if_pos h3, if_pos (le_trans h h3)]
        · rw [if_neg h3]
          exact List.nil_sublist _
  exact ⟨hsub, hsub.length_le⟩

/-- C9 witness: thresholds 1/2 ≤ 4/5 at a concrete embedding function and
texts. -/
theorem C9_witness :
    (find_similar_segments
        { emb := fun _ => [], similarity_threshold := 4/5, min_context_length := 10 }
        "a" "b").Sublist
      (find_similar_segments
        { emb := fun _ => [], similarity_threshold := 1/2, min_context_length := 10 }
        "a" "b") ∧
    (find_similar_segments
        { emb := fun _ => [], similarity_threshold := 4/5, min_context_length := 10 }
        "a" "b").length ≤
      (find_similar_segments
        { emb := fun _ => [], similarity_threshold := 1/2, min_context_length := 10 }
        "a" "b").length :=
  C9_threshold_monotone (fun _ => []) (1/2) (4/5) 10 "a" "b" (by norm_num)

/-- C7: segmentation yields no empty or whitespace-only entries, is an
order-preserving sublist of the stripped lines of the input, maps the empty
string to the empty sequence; and every pair processed by
`find_similar_segments` consists of segments of the two texts of length at
least the configured minimum — shorter segments are excluded from embedding
and comparison. -/
theorem C7_segmentation_properties :
    (∀ (c : String) (s : String), s ∈ segments c →
        s ≠ "" ∧ ¬ (∀ ch ∈ s.toList, ch.isWhitespace = true))
    ∧ (∀ c : String,
        (segments c).Sublist ((c.toList.splitOn '\n').map (fun l => pyStrip (String.mk l))))
    ∧ segments "" = []
    ∧ (∀ (v : SemanticValidator) (t1 t2 : String) (m : String × String × ℝ),
        m ∈ find_similar_segments v t1 t2 →
          m.1 ∈ segments t1 ∧ m.2.1 ∈ segments t2 ∧
          v.min_context_length ≤ m.1.length ∧ v.min_context_length ≤ m.2.1.length) := by
  refine ⟨?_, ?_, segments_empty, ?_⟩
  · intro c s hs
    exact ⟨mem_segments_ne_empty hs, mem_segments_not_whitespace_only hs⟩
  · intro c
    have hseg : segments c =
        ((c.toList.splitOn '\n').map (fun l => pyStrip (String.mk l))).filter
          (fun s => s != "") := by
      unfold segments pySplitChar
      rw [List.map_map]
      rfl
    rw [hseg]
    exact List.filter_sublist _
  · intro v t1 t2 m hm
    obtain ⟨s1, hs1, s2, hs2, h1, h2, _, rfl⟩ := mem_find_similar_segments.mp hm
    exact ⟨hs1, hs2, h1, h2⟩

/-- C7 witness: the segment "hi" of a concrete two-line context is non-empty
and not whitespace-only. -/
theorem C7_witness :
    "hi" ≠ "" ∧ ¬ (∀ ch ∈ "hi".toList, ch.isWhitespace = true) :=
  C7_segmentation_properties.1 "  hi  \nx" "hi" (by decide)

/-- C5 counterexample: a raising embedding provider aborts the whole
validation — with a candidate and an existing rule that each have one
qualifying segment, `validate_rule` propagates the provider's exception
instead of skipping the segment. -/
theorem C5_counterexample :
    validate_ruleE (fun _ => Except.error "embedding failure")
        { title := "t", context := "abcdefghij" }
        [{ title := "u", context := "klmnopqrstu" }]
      = Except.error "embedding failure" := by
  rfl

/-- C5 (amended): the zero-vector fallback (for unembeddable text) scores
0.0, so segments whose embeddings are all-zero never reach the 0.8
threshold; whenever every qualifying pair is either zero-embedded or scores
below the threshold, the rule is still judged valid based on the remaining
segments. A provider that raises, by contrast, aborts the validation. -/
theorem C5_zero_fallback_valid (emb : String → List ℝ) (new_rule : Rule)
    (existing_rules : List Rule)
    (h : ∀ er ∈ existing_rules, ∀ s1 ∈ segments new_rule.context,
      ∀ s2 ∈ segments er.context, 10 ≤ s1.length → 10 ≤ s2.length →
      (∀ x ∈ get_embeddings emb s1, x = (0:ℝ)) ∨
      (∀ x ∈ get_embeddings emb s2, x = (0:ℝ)) ∨
      calculate_similarity (get_embeddings emb s1) (get_embeddings emb s2) < 0.8) :
    (validate_rule emb new_rule existing_rules).is_valid = true ∧
    (validate_rule emb new_rule existing_rules).details = [] := by
  rw [validate_rule_eq]
  have hany : ¬ ((existing_rules.any (fun er =>
      (check_semantic_overlap (defaultValidator emb) new_rule er).1)) = true) := by
    rw [List.any_eq_true]
    rintro ⟨er, her, hch⟩
    obtain ⟨s1, hs1, s2, hs2, h1, h2, h3⟩ :=
      (check_semantic_overlap_fst_iff (defaultValidator emb) new_rule er).mp hch
    simp only [defaultValidator] at h3
    rcases h er her s1 hs1 s2 hs2 h1 h2 with hz | hz | hlt
    · rw [calculate_similarity_zero _ _ (Or.inl hz)] at h3
      norm_num at h3
    · rw [calculate_similarity_zero _ _ (Or.inr hz)] at h3
      norm_num at h3
    · linarith
  rw [if_neg hany]
  exact ⟨rfl, rfl⟩

/-- C5 witness: with no existing rules the hypothesis is vacuous and the
candidate is judged valid. -/
theorem C5_witness :
    (validate_rule (fun _ => []) { title := "t", context := "abcdefghij" } []).is_valid = true ∧
    (validate_rule (fun _ => []) { title := "t", context := "abcdefghij" } []).details = [] :=
  C5_zero_fallback_valid (fun _ => []) _ [] (by simp)
